import Mathlib

/-!
# FunctionalPlus: `maybe`, composition, pairs and dictionaries

A shallow embedding of `include/fplus/maybe.h`, `include/fplus/composition.h`,
`include/fplus/pairs.h` and `include/fplus/maps.h`.

Modelling conventions.

* `std::unique_ptr<T>` is an `Option T`: `none` is the null pointer, `some v` owns `v`.
  `std::make_unique<T>(v)` is `some v`, `static_cast<bool>(p)` is `p.isSome`, and `*p`
  is `deref p`, which faults on the null pointer.
* `assert(c)` is `cpp_assert c`, as `<cassert>` defines it when `NDEBUG` is not defined:
  it faults when `c` is false.
* A function that can reach an `assert` or a dereference returns `Except Fault _`.
* C++ `operator==` on the contained type is an arbitrary `BEq` instance.
* A sequence container is a `List`, an iterator is the list of the elements from its
  position on, and a function that reads through an iterator returns an `Option`, `none`
  when it would read or move past the end.
* A dictionary is the list of its entries in iteration order.
-/

namespace fplus

/-! ## Faults, pointers and assertions -/

/-- The two ways a call can abort: a failed `assert`, or `*p` on a null `unique_ptr`. -/
inductive Fault where
  | assertion_failed
  | null_dereference
  deriving DecidableEq, Repr

/-- The macro `assert(c)` of `<cassert>`. -/
def cpp_assert (c : Bool) : Except Fault Unit :=
  if c then .ok () else .error Fault.assertion_failed

/-- The expression `*p` for `p : std::unique_ptr<T>`. -/
def deref {T : Type} (p : Option T) : Except Fault T :=
  match p with
  | some v => .ok v
  | none => .error Fault.null_dereference

/-- Whether a result is an abort. -/
def isFault {α : Type} (r : Except Fault α) : Bool :=
  match r with
  | .ok _ => false
  | .error _ => true

/-! ## `class maybe<T>` (maybe.h, lines 17-32) -/

/-- The class `maybe<T>`: its only data member is `ptr_t ptr_`. -/
structure maybe (T : Type) where
  ptr_ : Option T
  deriving DecidableEq, Repr

/-- The private accessor `const ptr_t& get() const { return ptr_; }`. -/
def maybe.get {T : Type} (m : maybe T) : Option T := m.ptr_

/-- The default constructor `maybe() {}`: `ptr_` is default-initialised to null. -/
def maybe.ctor_default {T : Type} : maybe T := ⟨none⟩

/-- The copy constructor
`maybe(const maybe<T>& other) : ptr_(other.get() ? std::make_unique<T>(*other.get()) : ptr_t())`. -/
def maybe.ctor_copy {T : Type} (other : maybe T) : Except Fault (maybe T) :=
  if other.get.isSome then do
    let v ← deref other.get
    pure ⟨some v⟩
  else
    pure ⟨none⟩

/-- The converting constructor `explicit maybe(const T& val) : ptr_(std::make_unique<T>(val))`. -/
def maybe.ctor_value {T : Type} (val : T) : maybe T := ⟨some val⟩

/-- The member `bool is_just() const { return static_cast<bool>(get()); }`. -/
def maybe.is_just {T : Type} (m : maybe T) : Bool := m.get.isSome

/-- The member `const T& unsafe_get_just() const { assert(is_just()); return *get(); }`. -/
def maybe.unsafe_get_just {T : Type} (m : maybe T) : Except Fault T := do
  cpp_assert m.is_just
  deref m.get

/-! ## Free functions of maybe.h (lines 34-134) -/

/-- The function `is_just(maybe)`: is not nothing? -/
def is_just {T : Type} (m : maybe T) : Bool := m.is_just

/-- The function `is_nothing(maybe)`: has no value? -/
def is_nothing {T : Type} (m : maybe T) : Bool := !is_just m

/-- The function `unsafe_get_just(maybe)`: crashes if maybe is nothing. -/
def unsafe_get_just {T : Type} (m : maybe T) : Except Fault T := m.unsafe_get_just

/-- The function `with_default(defaultValue, maybe)`. -/
def with_default {T : Type} (defaultValue : T) (m : maybe T) : Except Fault T :=
  if is_just m then
    unsafe_get_just m
  else
    pure defaultValue

/-- The function `just(val)`: wrap a value in a maybe. -/
def just {T : Type} (val : T) : maybe T := maybe.ctor_value val

/-- The function `nothing<T>()`: construct a nothing. -/
def nothing {T : Type} : maybe T := maybe.ctor_default

/-- The comparison `operator == (x, y)` on `maybe<T>`. -/
def maybe_eq {T : Type} [BEq T] (x y : maybe T) : Except Fault Bool :=
  if is_just x && is_just y then do
    let a ← unsafe_get_just x
    let b ← unsafe_get_just y
    pure (a == b)
  else
    pure (is_just x == is_just y)

/-- The comparison `operator != (x, y)` on `maybe<T>`: `return !(x == y);`. -/
def maybe_ne {T : Type} [BEq T] (x y : maybe T) : Except Fault Bool := do
  let e ← maybe_eq x y
  pure (!e)

/-- The function `lift(f)`, applied to `m`. -/
def lift {A B : Type} (f : A → B) (m : maybe A) : Except Fault (maybe B) :=
  if is_just m then do
    let a ← unsafe_get_just m
    pure (maybe.ctor_value (f a))
  else
    pure nothing

/-- The function `and_then(f, g)`, applied to `x`, for side-effect-free `f` and `g`. -/
def and_then {A B C : Type} (f : A → maybe B) (g : B → maybe C) (x : A) :
    Except Fault (maybe C) :=
  let maybeB := f x
  if is_just maybeB then do
    let b ← unsafe_get_just maybeB
    pure (g b)
  else
    pure nothing

/-- The function `and_then(f, g)`, applied to `x`, for callables with side effects on a
state `σ` (such as a stub that counts its calls): each call of `f` or `g` takes the
current state and returns the next one. -/
def and_then_effect {σ A B C : Type} (f : A → σ → maybe B × σ) (g : B → σ → maybe C × σ)
    (x : A) (s : σ) : Except Fault (maybe C × σ) :=
  let r := f x s
  let maybeB := r.1
  if is_just maybeB then do
    let b ← unsafe_get_just maybeB
    pure (g b r.2)
  else
    pure (nothing, r.2)

/-! ## Scenario functions of the specification -/

/-- The scenario function `f(x) = x > 0 ? just(x) : nothing`. -/
def keep_positive (x : Int) : maybe Int := if x > 0 then just x else nothing

/-- The scenario function `g(y) = just(y * 2)`. -/
def twice (y : Int) : maybe Int := just (y * 2)

/-- The scenario function `square(x) = x * x`. -/
def square (x : Int) : Int := x * x

/-- The function `keep_positive` as a callable on a call counter, which it leaves alone. -/
def keep_positive_counted (x : Int) (calls : Nat) : maybe Int × Nat :=
  (keep_positive x, calls)

/-- A counting stub: `twice` that also increments a call counter. -/
def twice_counted (y : Int) (calls : Nat) : maybe Int × Nat := (twice y, calls + 1)

/-! ## Static checks of the composition functions

The `static_assert`s of `compose` (composition.h, lines 121-167) and of `and_then`
(maybe.h, lines 117-126), as predicates on the signatures of the callables. The type
trait `std::is_convertible<From, To>::value` is a parameter `conv From To`. -/

/-- Modelled from the spec: `utils::function_traits<F>` of `function_traits.h`, the static
type introspection on function signatures, which is not among the sources. Of a callable
type it gives `arity`, `arg<0>::type` and `result_type`. -/
structure function_traits (Ty : Type) where
  arity : Nat
  arg0 : Ty
  result_type : Ty

/-- The traits of a unary callable with parameter type `arg` and result type `result`. -/
def unary_traits {Ty : Type} (arg result : Ty) : function_traits Ty := ⟨1, arg, result⟩

/-- The `static_assert`s of the two-function `compose(f, g)` (lines 97-99). -/
def compose2_static_asserts {Ty : Type} (conv : Ty → Ty → Bool)
    (F G : function_traits Ty) : Bool :=
  let FOut := F.result_type
  let GIn := G.arg0
  F.arity == 1 && G.arity == 1 && conv FOut GIn

/-- The `static_assert`s of the three-function `compose(f, g, h)` (lines 113-117). -/
def compose3_static_asserts {Ty : Type} (conv : Ty → Ty → Bool)
    (F G H : function_traits Ty) : Bool :=
  let FOut := F.result_type
  let GIn := G.arg0
  let GOut := G.result_type
  let HIn := H.arg0
  F.arity == 1 && G.arity == 1 && H.arity == 1 && conv FOut GIn && conv GOut HIn

/-- The `static_assert`s of the four-function `compose(f, g, h, i)`, each under the names
the template header gives. -/
def compose4_static_asserts {Ty : Type} (conv : Ty → Ty → Bool)
    (F G H I : function_traits Ty) : Bool :=
  let FOut := F.result_type
  let GIn := G.arg0
  let GOut := G.result_type
  let HIn := H.arg0
  let HOut := H.result_type
  let IIn := I.arg0
  F.arity == 1 && G.arity == 1 && H.arity == 1 && I.arity == 1 &&
    conv FOut GIn && conv GOut HIn && conv HOut IIn

/-- The `static_assert`s of the five-function `compose(f, g, h, i, j)`. The template header
declares `JIn` as `utils::function_traits<I>::template arg<0>::type` (line 153). -/
def compose5_static_asserts {Ty : Type} (conv : Ty → Ty → Bool)
    (F G H I J : function_traits Ty) : Bool :=
  let FOut := F.result_type
  let GIn := G.arg0
  let GOut := G.result_type
  let HIn := H.arg0
  let HOut := H.result_type
  let IIn := I.arg0
  let IOut := I.result_type
  let JIn := I.arg0
  F.arity == 1 && G.arity == 1 && H.arity == 1 && I.arity == 1 && J.arity == 1 &&
    conv FOut GIn && conv GOut HIn && conv HOut IIn && conv IOut JIn

/-- The `static_assert`s of `and_then(f, g)`. Here `strip` is
`std::remove_const_t<std::remove_reference_t<_>>` and `member_type t` is the nested type
`t::type` (`maybe<T>::type` is `T`, line 27), `none` for a type without such a member; the
default template argument `C = GOut::type` needs the member of `GOut` as well. -/
def and_then_static_asserts {Ty : Type} (conv : Ty → Ty → Bool) (strip : Ty → Ty)
    (member_type : Ty → Option Ty) (F G : function_traits Ty) : Bool :=
  let FOut := strip F.result_type
  let GIn := strip G.arg0
  let GOut := strip G.result_type
  match member_type FOut, member_type GOut with
  | some FOut_type, some _ => F.arity == 1 && G.arity == 1 && conv FOut_type GIn
  | _, _ => false

/-- The condition the specification states for a chain of five unary functions: the output
type of each function is convertible to the input type of the next one. -/
def chain5_convertible {Ty : Type} (conv : Ty → Ty → Bool)
    (F G H I J : function_traits Ty) : Bool :=
  conv F.result_type G.arg0 && conv G.result_type H.arg0 && conv H.result_type I.arg0 &&
    conv I.result_type J.arg0

/-- Two C++ types for concrete signatures. -/
inductive CppType where
  | int
  | std_string
  deriving DecidableEq, Repr

/-- The trait `std::is_convertible` on `int` and `std::string`: each converts to itself
only. -/
def is_convertible_sample (a b : CppType) : Bool := decide (a = b)

/-- The signature `int(int)`. -/
def sig_int_to_int : function_traits CppType := ⟨1, .int, .int⟩

/-- The signature `std::string(int)`. -/
def sig_int_to_string : function_traits CppType := ⟨1, .int, .std_string⟩

/-- The signature `int(std::string)`. -/
def sig_string_to_int : function_traits CppType := ⟨1, .std_string, .int⟩

/-- The values of the two sample types: integers for `int`, strings for `std::string`. -/
def cpp_value : CppType → Type
  | .int => Int
  | .std_string => String

/-- A sample function `int(int)`: the successor. -/
def add_one (n : Int) : Int := n + 1

/-- A sample function `std::string(int)`: the string of `n` characters `x`. -/
def to_text (n : Int) : String := String.mk (List.replicate n.toNat 'x')

/-- A sample function `int(std::string)`: the length of the string. -/
def text_length (t : String) : Int := t.length

/-- A model of the values of the C++ type `double` under `operator==`: a number, or NaN,
which compares unequal to every value and to itself. -/
inductive double_sample where
  | number (n : Int)
  | nan
  deriving DecidableEq, Repr

/-- The comparison `operator==` on `double`. -/
def double_sample.eq : double_sample → double_sample → Bool
  | .number a, .number b => a == b
  | _, _ => false

instance : BEq double_sample := ⟨double_sample.eq⟩

/-! ## Composition and predicate combinators (composition.h, lines 89-231)

For `compose`, a C++ type is a name `a : Ty` with its values `El a`, and `conv` is
`std::is_convertible`. A call of `compose` whose `static_assert`s fail does not compile:
its model is `none`. Otherwise the model is the closure that the call returns. The
combinators on predicates give the closure directly. -/

/-- The two-function `compose(f, g)` (lines 95-101): the `static_assert`s, then
`[f, g](FIn x) { return g(f(x)); }`. -/
def compose {Ty : Type} (El : Ty → Type) (conv : Ty → Ty → Bool) (a b c : Ty)
    (f : El a → El b) (g : El b → El c) : Option (El a → El c) :=
  if compose2_static_asserts conv (unary_traits a b) (unary_traits b c) then
    some (fun x => g (f x))
  else
    none

/-- The three-function `compose(f, g, h)` (lines 111-119): the `static_assert`s, then
`[f, g, h](FIn x) { return h(g(f(x))); }`. -/
def compose_3 {Ty : Type} (El : Ty → Type) (conv : Ty → Ty → Bool) (a b c d : Ty)
    (f : El a → El b) (g : El b → El c) (h : El c → El d) : Option (El a → El d) :=
  if compose3_static_asserts conv (unary_traits a b) (unary_traits b c)
      (unary_traits c d) then
    some (fun x => h (g (f x)))
  else
    none

/-- The four-function `compose(f, g, h, i)` (lines 131-141): the `static_assert`s, then the
closure that returns `i(h(g(f(x))))`. -/
def compose_4 {Ty : Type} (El : Ty → Type) (conv : Ty → Ty → Bool) (a b c d e : Ty)
    (f : El a → El b) (g : El b → El c) (h : El c → El d) (i : El d → El e) :
    Option (El a → El e) :=
  if compose4_static_asserts conv (unary_traits a b) (unary_traits b c)
      (unary_traits c d) (unary_traits d e) then
    some (fun x => i (h (g (f x))))
  else
    none

/-- The five-function `compose(f, g, h, i, j)` (lines 155-167): the `static_assert`s, the
last of which compares the result type of `i` with `JIn` as line 153 declares it, then the
closure that returns `j(i(h(g(f(x)))))`. -/
def compose_5 {Ty : Type} (El : Ty → Type) (conv : Ty → Ty → Bool) (a b c d e r : Ty)
    (f : El a → El b) (g : El b → El c) (h : El c → El d) (i : El d → El e)
    (j : El e → El r) : Option (El a → El r) :=
  if compose5_static_asserts conv (unary_traits a b) (unary_traits b c)
      (unary_traits c d) (unary_traits d e) (unary_traits e r) then
    some (fun x => j (i (h (g (f x)))))
  else
    none

/-- The combinator `logical_not(f)`: `[f](X x) { return !f(x); }`. -/
def logical_not {X : Type} (f : X → Bool) : X → Bool :=
  fun x => !f x

/-- The combinator `logical_or(f, g)`: `[f, g](X x) { return f(x) || g(x); }`. -/
def logical_or {X : Type} (f g : X → Bool) : X → Bool :=
  fun x => f x || g x

/-- The combinator `logical_and(f, g)`: `[f, g](X x) { return f(x) && g(x); }`. -/
def logical_and {X : Type} (f g : X → Bool) : X → Bool :=
  fun x => f x && g x

/-- The combinator `logical_xor(f, g)`: the closure evaluates both predicates and returns
`(fx && !gx) || (!fx && gx)`. -/
def logical_xor {X : Type} (f g : X → Bool) : X → Bool :=
  fun x =>
    let fx := f x
    let gx := g x
    (fx && !gx) || (!fx && gx)

/-! ## Sequences and iterators (pairs.h)

A sequence container is a `List`. An iterator into it is the list of the elements from
its position on: `std::begin(xs)` is `xs`, `std::end(xs)` is `[]`, `++it` is `it.tail`.
Reading `*it` at the end, advancing past the end and a `std::size_t` subtraction that
would wrap around are undefined or unintended, and give `none`. -/

/-- Modelled from the spec: `size_of_cont(xs)` of `container_common.h`, which is not among
the sources: the number of elements of a container. -/
def size_of_cont {T : Type} (xs : List T) : Nat := xs.length

/-- Modelled from the spec: `prepare_container(ys, size)` of `container_common.h`, which is
not among the sources: it reserves room for `size` elements and leaves the elements of
`ys` as they are. -/
def prepare_container {T : Type} (ys : List T) (_size : Nat) : List T := ys

/-- Modelled from the spec: assignment through `get_back_inserter(ys)` of
`container_common.h`, which is not among the sources: `*it = v` appends `v` to `ys`. -/
def back_insert {T : Type} (ys : List T) (v : T) : List T := ys ++ [v]

/-- The expression `*it` on an iterator: `none` at the end of the sequence. -/
def iter_deref {T : Type} (it : List T) : Option T := it.head?

/-- The expression `++it` (or `it++` for its effect on `it`). -/
def iter_next {T : Type} (it : List T) : List T := it.tail

/-- The call `std::advance(it, n)`: `none` when it would pass the end. -/
def iter_advance {T : Type} : List T → Nat → Option (List T)
  | it, 0 => some it
  | [], _ + 1 => none
  | _ :: it, n + 1 => iter_advance it n

/-- The subtraction `a - b` on `std::size_t`: `none` when it would wrap around. -/
def size_t_sub (a b : Nat) : Option Nat :=
  if b ≤ a then some (a - b) else none

/-- The loop of `zip_with` (lines 45-48), with `remaining = resultSize - i`:
`*itResult = f(*(itXs++), *(itYs)++)`. -/
def zip_with_loop {X Y T : Type} (f : X → Y → T) :
    Nat → List X → List Y → List T → Option (List T)
  | 0, _, _, result => some result
  | remaining + 1, itXs, itYs, result => do
    let x ← iter_deref itXs
    let y ← iter_deref itYs
    zip_with_loop f remaining (iter_next itXs) (iter_next itYs) (back_insert result (f x y))

/-- The function `zip_with(f, xs, ys)` (lines 39-49). -/
def zip_with {X Y T : Type} (f : X → Y → T) (xs : List X) (ys : List Y) :
    Option (List T) :=
  let result : List T := []
  let resultSize := min (size_of_cont xs) (size_of_cont ys)
  let result := prepare_container result resultSize
  zip_with_loop f resultSize xs ys result

/-- The function `zip(xs, ys)`: `zip_with(MakePair, xs, ys)` with
`MakePair = [](const X& x, const Y& y) { return std::make_pair(x, y); }`. -/
def zip {X Y : Type} (xs : List X) (ys : List Y) : Option (List (X × Y)) :=
  let MakePair := fun (x : X) (y : Y) => (x, y)
  zip_with MakePair xs ys

/-- The function `unzip(pairs)` (lines 75-86): the range-based loop appends `pair.first`
to `firsts` and `pair.second` to `seconds`. -/
def unzip {X Y : Type} (pairs : List (X × Y)) : List X × List Y :=
  let firsts : List X := prepare_container [] (size_of_cont pairs)
  let seconds : List Y := prepare_container [] (size_of_cont pairs)
  pairs.foldl (fun acc pair => (back_insert acc.1 pair.1, back_insert acc.2 pair.2))
    (firsts, seconds)

/-- The function `swap_pair_elems(pair)`: `std::make_pair(pair.second, pair.first)`. -/
def swap_pair_elems {X Y : Type} (pair : X × Y) : Y × X := (pair.2, pair.1)

/-- The loop of `overlapping_pairs` (lines 141-144):
`for (; it2 != std::end(xs); ++it1, ++it2) *itOut = std::make_pair(*it1, *it2);`. -/
def overlapping_pairs_loop {T : Type} :
    List T → List T → List (T × T) → Option (List (T × T))
  | _, [], result => some result
  | it1, b :: it2, result => do
    let a ← iter_deref it1
    overlapping_pairs_loop (iter_next it1) it2 (back_insert result (a, b))

/-- The function `overlapping_pairs(xs)` (lines 133-145). -/
def overlapping_pairs {T : Type} (xs : List T) : Option (List (T × T)) :=
  let result : List (T × T) := []
  if size_of_cont xs < 2 then
    some result
  else do
    let size ← size_t_sub (size_of_cont xs) 1
    let result := prepare_container result size
    let it1 := xs
    let it2 ← iter_advance it1 1
    overlapping_pairs_loop it1 it2 result

/-! ## Dictionaries (maps.h)

A dictionary is the list of its entries in iteration order. For a `std::map` the keys
are strictly ascending (`is_std_map`); for a `std::unordered_map` they are pairwise
distinct (`is_unordered_map`) and the order of the list carries no meaning. A template
parameter that names a container type is the function that builds this container from
a range of elements. -/

/-- The invariant of `std::map<Key, Val>`: the entries are in strictly ascending order of
their keys. -/
def is_std_map {K V : Type} [LinearOrder K] (dict : List (K × V)) : Prop :=
  dict.Pairwise (fun a b => a.1 < b.1)

/-- The invariant of `std::unordered_map<Key, Val>`: no two entries have the same key. -/
def is_unordered_map {K V : Type} (dict : List (K × V)) : Prop :=
  (dict.map Prod.fst).Nodup

instance {K V : Type} [LinearOrder K] (dict : List (K × V)) : Decidable (is_std_map dict) := by
  unfold is_std_map
  infer_instance

instance {K V : Type} [DecidableEq K] (dict : List (K × V)) :
    Decidable (is_unordered_map dict) := by
  unfold is_unordered_map
  infer_instance

/-- The member `map.find(key)`: the entry with this key, `none` for `std::end(map)`. -/
def map_find {K V : Type} [DecidableEq K] : List (K × V) → K → Option (K × V)
  | [], _ => none
  | entry :: rest, key => if entry.1 = key then some entry else map_find rest key

/-- The member `std::map::insert(entry)`: the entry goes to its place in the order of the
keys, and nothing changes when the key is already there. -/
def std_map_insert {K V : Type} [LinearOrder K] (entry : K × V) :
    List (K × V) → List (K × V)
  | [] => [entry]
  | first :: rest =>
    if entry.1 < first.1 then entry :: first :: rest
    else if first.1 < entry.1 then first :: std_map_insert entry rest
    else first :: rest

/-- The range constructor `std::map<Key, Val>(first, last)`: inserts the elements of the
range one after the other. -/
def std_map_of_range {K V : Type} [LinearOrder K] (pairs : List (K × V)) : List (K × V) :=
  pairs.foldl (fun dict entry => std_map_insert entry dict) []

/-- The member `std::unordered_map::insert(entry)`: nothing changes when the key is
already there. -/
def unordered_map_insert {K V : Type} [DecidableEq K] (entry : K × V)
    (dict : List (K × V)) : List (K × V) :=
  if (map_find dict entry.1).isSome then dict else dict ++ [entry]

/-- The range constructor `std::unordered_map<Key, Val>(first, last)`. -/
def unordered_map_of_range {K V : Type} [DecidableEq K] (pairs : List (K × V)) :
    List (K × V) :=
  pairs.foldl (fun dict entry => unordered_map_insert entry dict) []

/-- The range constructor `std::vector<T>(first, last)`. -/
def vector_of_range {T : Type} (xs : List T) : List T := xs

/-- Modelled from the spec: `convert<ContainerOut>(xs)` of `container_common.h`, which is
not among the sources: the container of type `ContainerOut` built from the elements of
`xs` in their order. -/
def convert {A C : Type} (ContainerOut : List A → C) (xs : List A) : C := ContainerOut xs

/-- Modelled from the spec: `transform(f, xs)` of `transform.h`, which is not among the
sources: the sequence of the `f(x)` for the elements `x` of `xs`, in their order. -/
def transform {A B : Type} (f : A → B) (xs : List A) : List B := xs.map f

/-- The function `pairs_to_map<MapOut>(pairs)`: `convert<MapOut>(pairs)`. -/
def pairs_to_map {K V M : Type} (MapOut : List (K × V) → M) (pairs : List (K × V)) : M :=
  convert MapOut pairs

/-- The function `map_to_pairs(dict)`: `convert<std::vector<OutPair>>(dict)`. -/
def map_to_pairs {K V : Type} (dict : List (K × V)) : List (K × V) :=
  convert vector_of_range dict

/-- The function `swap_keys_and_values(dict)` (lines 69-71), for the map type `MapOut`
with keys and values exchanged. -/
def swap_keys_and_values {K V M : Type} (MapOut : List (V × K) → M)
    (dict : List (K × V)) : M :=
  let inAsPairs := map_to_pairs dict
  let outAsPairs := transform swap_pair_elems inAsPairs
  pairs_to_map MapOut outAsPairs

/-- The function `create_map(keys, values)` with `MapOut = std::map<Key, Val>`. -/
def create_map {K V : Type} [LinearOrder K] (keys : List K) (values : List V) :
    Option (List (K × V)) := do
  let pairs ← zip keys values
  pure (pairs_to_map std_map_of_range pairs)

/-- The function `create_unordered_map(keys, values)` with
`MapOut = std::unordered_map<Key, Val>`. -/
def create_unordered_map {K V : Type} [DecidableEq K] (keys : List K) (values : List V) :
    Option (List (K × V)) := do
  let pairs ← zip keys values
  pure (pairs_to_map unordered_map_of_range pairs)

/-- The function `get_from_map(map, key)` (lines 105-108). -/
def get_from_map {K V : Type} [DecidableEq K] (map : List (K × V)) (key : K) : maybe V :=
  match map_find map key with
  | none => nothing
  | some it => just it.2

/-- The function `get_from_map_with_def(map, defVal, key)`:
`with_default(defVal, get_from_map(map, key))`. -/
def get_from_map_with_def {K V : Type} [DecidableEq K] (map : List (K × V)) (defVal : V)
    (key : K) : Except Fault V :=
  with_default defVal (get_from_map map key)

/-! ## Shared lemmas -/

theorem maybe_cases {T : Type} (m : maybe T) : m = nothing ∨ ∃ v, m = just v := by
  rcases m with ⟨_ | v⟩
  · exact Or.inl rfl
  · exact Or.inr ⟨v, rfl⟩

@[simp] theorem is_just_just {T : Type} (v : T) : is_just (just v) = true := rfl

@[simp] theorem is_just_nothing {T : Type} : is_just (nothing : maybe T) = false := rfl

@[simp] theorem unsafe_get_just_just {T : Type} (v : T) :
    unsafe_get_just (just v) = .ok v := rfl

@[simp] theorem unsafe_get_just_nothing {T : Type} :
    unsafe_get_just (nothing : maybe T) = .error Fault.assertion_failed := rfl

theorem just_ne_nothing {T : Type} (v : T) : just v ≠ nothing := by
  simp [just, nothing, maybe.ctor_value, maybe.ctor_default]

theorem is_nothing_iff {T : Type} (m : maybe T) : is_nothing m = true ↔ m = nothing := by
  rcases maybe_cases m with h | ⟨v, h⟩ <;> subst h
  · simp [is_nothing]
  · simpa [is_nothing] using just_ne_nothing v

/-! ## Shared lemmas on sequences -/

theorem zip_with_loop_eq {X Y T : Type} (f : X → Y → T) (n : Nat) (xs : List X)
    (ys : List Y) (acc : List T) (hx : n ≤ xs.length) (hy : n ≤ ys.length) :
    zip_with_loop f n xs ys acc = some (acc ++ List.zipWith f (xs.take n) (ys.take n)) := by
  induction n generalizing xs ys acc with
  | zero => simp [zip_with_loop]
  | succ n ih =>
    cases xs with
    | nil => simp at hx
    | cons x xs =>
      cases ys with
      | nil => simp at hy
      | cons y ys =>
        simp only [List.length_cons, Nat.add_le_add_iff_right] at hx hy
        simp [zip_with_loop, iter_deref, iter_next, back_insert, ih xs ys _ hx hy]

theorem zip_with_eq_zipWith {X Y T : Type} (f : X → Y → T) (xs : List X) (ys : List Y) :
    zip_with f xs ys = some (List.zipWith f xs ys) := by
  have h := zip_with_loop_eq f (min xs.length ys.length) xs ys []
    (Nat.min_le_left _ _) (Nat.min_le_right _ _)
  simp only [zip_with, size_of_cont, prepare_container, h, List.nil_append]
  congr 1
  rw [← List.zipWith_eq_zipWith_take_min]

theorem zip_eq_zip {X Y : Type} (xs : List X) (ys : List Y) :
    zip xs ys = some (List.zip xs ys) := by
  simp [zip, zip_with_eq_zipWith, List.zip]

theorem unzip_foldl_eq {X Y : Type} (pairs : List (X × Y)) (as : List X) (bs : List Y) :
    pairs.foldl (fun acc pair => (back_insert acc.1 pair.1, back_insert acc.2 pair.2))
      (as, bs) = (as ++ pairs.map Prod.fst, bs ++ pairs.map Prod.snd) := by
  induction pairs generalizing as bs with
  | nil => simp
  | cons p ps ih =>
    rw [List.foldl_cons, ih]
    simp [back_insert]

theorem unzip_eq_unzip {X Y : Type} (pairs : List (X × Y)) : unzip pairs = pairs.unzip := by
  rw [List.unzip_eq_map]
  simp [unzip, prepare_container, unzip_foldl_eq]

theorem overlapping_pairs_loop_eq {T : Type} (it1 it2 : List T) (acc : List (T × T))
    (h : it2.length ≤ it1.length) :
    overlapping_pairs_loop it1 it2 acc = some (acc ++ List.zip it1 it2) := by
  induction it2 generalizing it1 acc with
  | nil => simp [overlapping_pairs_loop]
  | cons b it2 ih =>
    cases it1 with
    | nil => simp at h
    | cons a it1 =>
      simp only [List.length_cons, Nat.add_le_add_iff_right] at h
      simp [overlapping_pairs_loop, iter_deref, iter_next, back_insert, ih it1 _ h]

theorem overlapping_pairs_eq_zip_tail {T : Type} (xs : List T) :
    overlapping_pairs xs = some (List.zip xs xs.tail) := by
  match xs with
  | [] => rfl
  | [_] => rfl
  | a :: b :: rest =>
    have h := overlapping_pairs_loop_eq (a :: b :: rest) (b :: rest) [] (by simp)
    simp [overlapping_pairs, size_of_cont, size_t_sub, prepare_container, iter_advance, h]

/-! ## Shared lemmas on dictionaries -/

theorem map_find_eq_none {K V : Type} [DecidableEq K] (dict : List (K × V)) (key : K) :
    map_find dict key = none ↔ key ∉ dict.map Prod.fst := by
  induction dict with
  | nil => simp [map_find]
  | cons e rest ih =>
    by_cases h : e.1 = key
    · simp [map_find, h]
    · have h2 : ¬ key = e.1 := fun h3 => h h3.symm
      simp only [map_find, h, if_false, ih, List.map_cons, List.mem_cons, not_or, h2,
        not_false_eq_true, true_and]

theorem map_find_of_mem {K V : Type} [DecidableEq K] (dict : List (K × V))
    (hd : is_unordered_map dict) (k : K) (v : V) (h : (k, v) ∈ dict) :
    map_find dict k = some (k, v) := by
  induction dict with
  | nil => simp at h
  | cons e rest ih =>
    unfold is_unordered_map at hd ih
    rw [List.map_cons, List.nodup_cons] at hd
    rcases List.mem_cons.mp h with h1 | h1
    · subst h1
      simp [map_find]
    · have hne : e.1 ≠ k := by
        intro h2
        apply hd.1
        rw [h2]
        exact List.mem_map.mpr ⟨(k, v), h1, rfl⟩
      simp [map_find, hne, ih hd.2 h1]

theorem std_map_is_unordered {K V : Type} [LinearOrder K] (dict : List (K × V))
    (hd : is_std_map dict) : is_unordered_map dict := by
  unfold is_unordered_map List.Nodup
  rw [List.pairwise_map]
  exact List.Pairwise.imp (fun h => ne_of_lt h) hd

theorem std_map_insert_mem {K V : Type} [LinearOrder K] (e x : K × V) (dict : List (K × V))
    (h : x ∈ std_map_insert e dict) : x = e ∨ x ∈ dict := by
  induction dict with
  | nil => simpa [std_map_insert] using h
  | cons f rest ih =>
    unfold std_map_insert at h
    split_ifs at h with h1 h2
    · simpa using h
    · rcases List.mem_cons.mp h with h3 | h3
      · exact Or.inr (by simp [h3])
      · rcases ih h3 with h4 | h4
        · exact Or.inl h4
        · exact Or.inr (List.mem_cons_of_mem _ h4)
    · exact Or.inr h

theorem std_map_insert_sorted {K V : Type} [LinearOrder K] (e : K × V)
    (dict : List (K × V)) (hd : is_std_map dict) : is_std_map (std_map_insert e dict) := by
  induction dict with
  | nil => simp [std_map_insert, is_std_map]
  | cons f rest ih =>
    unfold is_std_map at hd ih ⊢
    rw [List.pairwise_cons] at hd
    unfold std_map_insert
    split_ifs with h1 h2
    · refine List.pairwise_cons.mpr ⟨fun b hb => ?_, List.pairwise_cons.mpr hd⟩
      rcases List.mem_cons.mp hb with h3 | h3
      · rw [h3]
        exact h1
      · exact lt_trans h1 (hd.1 b h3)
    · refine List.pairwise_cons.mpr ⟨fun b hb => ?_, ih hd.2⟩
      rcases std_map_insert_mem e b rest hb with h3 | h3
      · rw [h3]
        exact h2
      · exact hd.1 b h3
    · exact List.pairwise_cons.mpr hd

theorem std_map_insert_perm {K V : Type} [LinearOrder K] (e : K × V) (dict : List (K × V))
    (hk : e.1 ∉ dict.map Prod.fst) : (std_map_insert e dict).Perm (e :: dict) := by
  induction dict with
  | nil => simp [std_map_insert]
  | cons f rest ih =>
    rw [List.map_cons, List.mem_cons, not_or] at hk
    unfold std_map_insert
    split_ifs with h1 h2
    · exact List.Perm.refl _
    · exact ((ih hk.2).cons f).trans (List.Perm.swap e f rest)
    · exact absurd (le_antisymm (not_lt.mp h2) (not_lt.mp h1)) hk.1

theorem std_map_foldl_sorted {K V : Type} [LinearOrder K] (pairs acc : List (K × V))
    (h : is_std_map acc) :
    is_std_map (pairs.foldl (fun dict entry => std_map_insert entry dict) acc) := by
  induction pairs generalizing acc with
  | nil => exact h
  | cons e ps ih => exact ih _ (std_map_insert_sorted e acc h)

theorem std_map_foldl_perm {K V : Type} [LinearOrder K] (pairs acc : List (K × V))
    (h : is_unordered_map (acc ++ pairs)) :
    (pairs.foldl (fun dict entry => std_map_insert entry dict) acc).Perm (acc ++ pairs) := by
  induction pairs generalizing acc with
  | nil => simp
  | cons e ps ih =>
    unfold is_unordered_map at h ih
    have hmid : (acc ++ e :: ps).Perm (e :: acc ++ ps) := List.perm_middle
    have hnd : ((e :: acc ++ ps).map Prod.fst).Nodup := (hmid.map Prod.fst).nodup_iff.mp h
    have hk : e.1 ∉ acc.map Prod.fst := by
      rw [List.cons_append, List.map_cons, List.nodup_cons, List.map_append,
        List.mem_append, not_or] at hnd
      exact hnd.1.1
    have hins : (std_map_insert e acc ++ ps).Perm (e :: acc ++ ps) :=
      (std_map_insert_perm e acc hk).append_right ps
    have hnd2 : ((std_map_insert e acc ++ ps).map Prod.fst).Nodup :=
      (hins.map Prod.fst).nodup_iff.mpr hnd
    exact ((ih _ hnd2).trans hins).trans hmid.symm

theorem std_map_of_range_sorted {K V : Type} [LinearOrder K] (pairs : List (K × V)) :
    is_std_map (std_map_of_range pairs) :=
  std_map_foldl_sorted pairs [] List.Pairwise.nil

theorem std_map_of_range_perm {K V : Type} [LinearOrder K] (pairs : List (K × V))
    (h : is_unordered_map pairs) : (std_map_of_range pairs).Perm pairs := by
  have h2 := std_map_foldl_perm pairs [] (by simpa using h)
  simpa [std_map_of_range] using h2

theorem std_map_eq_of_perm {K V : Type} [LinearOrder K] (a b : List (K × V))
    (ha : is_std_map a) (hb : is_std_map b) (hp : a.Perm b) : a = b := by
  haveI : IsAntisymm (K × V) (fun x y => x.1 < y.1) :=
    ⟨fun _ _ h1 h2 => (lt_asymm h1 h2).elim⟩
  exact List.eq_of_perm_of_sorted hp ha hb

theorem unordered_map_foldl_eq {K V : Type} [DecidableEq K] (pairs acc : List (K × V))
    (h : is_unordered_map (acc ++ pairs)) :
    pairs.foldl (fun dict entry => unordered_map_insert entry dict) acc = acc ++ pairs := by
  induction pairs generalizing acc with
  | nil => simp
  | cons e ps ih =>
    unfold is_unordered_map at h ih
    have hk : e.1 ∉ acc.map Prod.fst := by
      rw [List.map_append, List.map_cons, List.nodup_append] at h
      intro hmem
      exact h.2.2 hmem (List.mem_cons_self _ _)
    have hins : unordered_map_insert e acc = acc ++ [e] := by
      simp [unordered_map_insert, (map_find_eq_none acc e.1).mpr hk]
    rw [List.foldl_cons, hins, ih]
    · simp
    · simpa using h

theorem unordered_map_of_range_eq {K V : Type} [DecidableEq K] (pairs : List (K × V))
    (h : is_unordered_map pairs) : unordered_map_of_range pairs = pairs := by
  have h2 := unordered_map_foldl_eq pairs [] (by simpa using h)
  simpa [unordered_map_of_range] using h2

theorem swap_keys_and_values_std_eq {K V : Type} [LinearOrder V] (m : List (K × V)) :
    swap_keys_and_values std_map_of_range m = std_map_of_range (m.map swap_pair_elems) :=
  rfl

theorem swap_keys_and_values_unordered_eq {K V : Type} [DecidableEq V] (m : List (K × V)) :
    swap_keys_and_values unordered_map_of_range m
      = unordered_map_of_range (m.map swap_pair_elems) :=
  rfl

theorem map_fst_swap_pair_elems {K V : Type} (m : List (K × V)) :
    (m.map swap_pair_elems).map Prod.fst = m.map Prod.snd := by
  simp [List.map_map, Function.comp_def, swap_pair_elems]

theorem map_swap_swap_pair_elems {K V : Type} (m : List (K × V)) :
    (m.map swap_pair_elems).map swap_pair_elems = m := by
  simp [List.map_map, Function.comp_def, swap_pair_elems]

theorem mem_map_swap_pair_elems {K V : Type} (m : List (K × V)) (k : K) (v : V) :
    (v, k) ∈ m.map swap_pair_elems ↔ (k, v) ∈ m := by
  simp only [List.mem_map, swap_pair_elems, Prod.mk.injEq]
  constructor
  · rintro ⟨⟨a, b⟩, h, h1, h2⟩
    simp only at h1 h2
    rw [← h1, ← h2]
    exact h
  · intro h
    exact ⟨(k, v), h, rfl, rfl⟩

theorem swap_keys_and_values_perm {K V : Type} [LinearOrder V] (m : List (K × V))
    (hv : (m.map Prod.snd).Nodup) :
    (swap_keys_and_values std_map_of_range m).Perm (m.map swap_pair_elems) := by
  rw [swap_keys_and_values_std_eq]
  apply std_map_of_range_perm
  unfold is_unordered_map
  rw [map_fst_swap_pair_elems]
  exact hv

theorem map_fst_zip_take {K V : Type} (keys : List K) (values : List V) :
    (List.zip keys values).map Prod.fst = keys.take (min keys.length values.length) := by
  rw [List.zip_eq_zip_take_min]
  apply List.map_fst_zip
  simp

theorem mem_zip_iff_index {K V : Type} (keys : List K) (values : List V) (k : K) (v : V) :
    (k, v) ∈ List.zip keys values ↔
      ∃ i, i < min keys.length values.length ∧ keys[i]? = some k ∧ values[i]? = some v := by
  rw [List.mem_iff_getElem?]
  constructor
  · rintro ⟨i, hi⟩
    rw [List.getElem?_zip_eq_some] at hi
    obtain ⟨h1, _⟩ := List.getElem?_eq_some.mp hi.1
    obtain ⟨h2, _⟩ := List.getElem?_eq_some.mp hi.2
    exact ⟨i, lt_min h1 h2, hi.1, hi.2⟩
  · rintro ⟨i, _, h1, h2⟩
    exact ⟨i, List.getElem?_zip_eq_some.mpr ⟨h1, h2⟩⟩

theorem zip_entries_spec {K V : Type} [DecidableEq K] (keys : List K) (values : List V)
    (m : List (K × V)) (hp : m.Perm (List.zip keys values))
    (hk : (keys.take (min keys.length values.length)).Nodup) :
    m.length = min keys.length values.length ∧
      (∀ k v, (k, v) ∈ m ↔
        ∃ i, i < min keys.length values.length ∧ keys[i]? = some k ∧ values[i]? = some v) ∧
      (∀ i, i < min keys.length values.length →
        ∃ k v, keys[i]? = some k ∧ values[i]? = some v ∧ get_from_map m k = just v) ∧
      (∀ k, k ∉ keys.take (min keys.length values.length) → get_from_map m k = nothing) := by
  have hfst : (m.map Prod.fst).Perm (keys.take (min keys.length values.length)) := by
    rw [← map_fst_zip_take]
    exact hp.map Prod.fst
  have hm : is_unordered_map m := hfst.nodup_iff.mpr hk
  have hmem : ∀ k v, (k, v) ∈ m ↔
      ∃ i, i < min keys.length values.length ∧ keys[i]? = some k ∧ values[i]? = some v :=
    fun k v => by rw [hp.mem_iff, mem_zip_iff_index]
  refine ⟨by rw [hp.length_eq, List.length_zip], hmem, fun i hi => ?_, fun k hk2 => ?_⟩
  · have hx : i < keys.length := lt_of_lt_of_le hi (Nat.min_le_left _ _)
    have hy : i < values.length := lt_of_lt_of_le hi (Nat.min_le_right _ _)
    have h1 : keys[i]? = some keys[i] := List.getElem?_eq_getElem hx
    have h2 : values[i]? = some values[i] := List.getElem?_eq_getElem hy
    refine ⟨keys[i], values[i], h1, h2, ?_⟩
    have h3 : (keys[i], values[i]) ∈ m := (hmem _ _).mpr ⟨i, hi, h1, h2⟩
    simp [get_from_map, map_find_of_mem m hm _ _ h3]
  · have h : k ∉ m.map Prod.fst := fun h2 => hk2 (hfst.mem_iff.mp h2)
    simp [get_from_map, (map_find_eq_none m k).mpr h]

/-! ## Claims -/

/-- C1. If `f(x)` is `just(y)` then `and_then(f, g)(x)` returns exactly `g(y)`, the optional
that `g` produced, not wrapped again. -/
theorem and_then_just {A B C : Type} (f : A → maybe B) (g : B → maybe C) (x : A) (y : B)
    (hf : f x = just y) : and_then f g x = .ok (g y) := by
  simp [and_then, hf]

/-- Scenario of C1: `and_then(f, g)(5) = just(10)`. -/
theorem and_then_just_witness :
    keep_positive 5 = just 5 ∧ and_then keep_positive twice 5 = .ok (twice 5) ∧
      twice 5 = just 10 :=
  ⟨by decide, and_then_just keep_positive twice 5 5 (by decide), by decide⟩

/-- C2. If `f(x)` is empty then `and_then(f, g)(x)` is empty whatever `g` is, and `g` is not
called: with side-effecting callables the state after the call is the state `f` left, so
the result and the effect are the same for every `g`. -/
theorem and_then_nothing {σ A B C : Type} (f : A → maybe B) (g g' : B → maybe C)
    (fe : A → σ → maybe B × σ) (ge ge' : B → σ → maybe C × σ) (x : A) (s : σ)
    (hf : is_nothing (f x) = true) (hfe : is_nothing (fe x s).1 = true) :
    and_then f g x = .ok nothing ∧ and_then f g x = and_then f g' x ∧
      and_then_effect fe ge x s = .ok (nothing, (fe x s).2) ∧
      and_then_effect fe ge x s = and_then_effect fe ge' x s := by
  rw [is_nothing_iff] at hf hfe
  simp [and_then, and_then_effect, hf, hfe]
  exact ⟨rfl, rfl⟩

/-- Scenario of C2: `and_then(f, g)(-1)` is nothing, and the counting stub is not called. -/
theorem and_then_nothing_witness :
    and_then keep_positive twice (-1) = .ok nothing ∧
      and_then keep_positive twice (-1) = and_then keep_positive (fun _ => nothing) (-1) ∧
      and_then_effect keep_positive_counted twice_counted (-1) 0
        = .ok (nothing, (keep_positive_counted (-1) 0).2) ∧
      and_then_effect keep_positive_counted twice_counted (-1) 0
        = and_then_effect keep_positive_counted (fun _ c => (nothing, c + 7)) (-1) 0 :=
  and_then_nothing keep_positive twice (fun _ => nothing) keep_positive_counted
    twice_counted (fun _ c => (nothing, c + 7)) (-1) 0 (by decide) (by decide)

/-- C3. The function `lift(f)` is the functorial map over the optional type:
`lift(f)(nothing) = nothing` and `lift(f)(just(v)) = just(f(v))` for every `v`. -/
theorem lift_functorial {A B : Type} (f : A → B) :
    lift f nothing = .ok nothing ∧ ∀ v : A, lift f (just v) = .ok (just (f v)) := by
  refine ⟨rfl, fun v => rfl⟩

/-- Scenario of C3: `lift(square)(just(4)) = just(16)` and `lift(square)(nothing) = nothing`. -/
theorem lift_functorial_witness :
    lift square (just 4) = .ok (just 16) ∧ lift square nothing = .ok nothing :=
  ⟨(lift_functorial square).2 4, (lift_functorial square).1⟩

/-- C4. The function `unsafe_get_just(m)` aborts exactly when `m` is nothing, and then by the
failed assertion; otherwise it returns the contained value. -/
theorem unsafe_get_just_fault_iff {T : Type} (m : maybe T) :
    (isFault (unsafe_get_just m) = true ↔ is_nothing m = true) ∧
      (is_nothing m = true → unsafe_get_just m = .error Fault.assertion_failed) ∧
      (is_nothing m = false → ∃ v, m = just v ∧ unsafe_get_just m = .ok v) := by
  rcases maybe_cases m with h | ⟨v, h⟩ <;> subst h
  · simp [is_nothing, isFault]
  · simp [is_nothing, isFault]

/-- Scenario of C4: extraction from nothing aborts, extraction from `just(3)` gives 3. -/
theorem unsafe_get_just_fault_iff_witness :
    unsafe_get_just (nothing : maybe Int) = .error Fault.assertion_failed ∧
      ∃ v, just (3 : Int) = just v ∧ unsafe_get_just (just (3 : Int)) = .ok v :=
  ⟨(unsafe_get_just_fault_iff nothing).2.1 (by decide),
    (unsafe_get_just_fault_iff (just 3)).2.2 (by decide)⟩

/-- C5. The comparison `x == y` never aborts and is true iff both are nothing, or both are
just with equal contained values; `nothing == nothing`, `just(v) == just(w)` is `v == w`,
`just(v) == nothing` is false in either order; `!=` is the negation of `==`. -/
theorem maybe_eq_iff {T : Type} [BEq T] (x y : maybe T) :
    (maybe_eq x y = .ok true ↔
        (x = nothing ∧ y = nothing) ∨ ∃ v w, x = just v ∧ y = just w ∧ (v == w) = true) ∧
      maybe_eq (nothing : maybe T) nothing = .ok true ∧
      (∀ v w : T, maybe_eq (just v) (just w) = .ok (v == w)) ∧
      (∀ v : T, maybe_eq (just v) nothing = .ok false ∧
        maybe_eq nothing (just v) = .ok false) ∧
      ∃ b, maybe_eq x y = .ok b ∧ maybe_ne x y = .ok (!b) := by
  have hjj : ∀ v w : T, maybe_eq (just v) (just w) = .ok (v == w) := fun _ _ => rfl
  have hjn : ∀ v : T, maybe_eq (just v) nothing = .ok false := fun _ => rfl
  have hnj : ∀ v : T, maybe_eq nothing (just v) = .ok false := fun _ => rfl
  have hnn : maybe_eq (nothing : maybe T) nothing = .ok true := rfl
  refine ⟨?_, hnn, hjj, fun v => ⟨hjn v, hnj v⟩, ?_⟩
  · rcases maybe_cases x with hx | ⟨v, hx⟩ <;> rcases maybe_cases y with hy | ⟨w, hy⟩ <;>
      subst hx <;> subst hy
    · simp [hnn]
    · simp [hnj, just_ne_nothing, (just_ne_nothing _).symm]
    · simp [hjn, just_ne_nothing, (just_ne_nothing _).symm]
    · rw [hjj]
      constructor
      · intro h
        exact Or.inr ⟨v, w, rfl, rfl, by simpa using h⟩
      · rintro (⟨h, _⟩ | ⟨v', w', h1, h2, h3⟩)
        · exact absurd h (just_ne_nothing v)
        · simp only [just, maybe.ctor_value, maybe.mk.injEq, Option.some.injEq] at h1 h2
          subst h1
          subst h2
          rw [h3]
  · rcases maybe_cases x with hx | ⟨v, hx⟩ <;> rcases maybe_cases y with hy | ⟨w, hy⟩ <;>
      subst hx <;> subst hy
    · exact ⟨true, rfl, rfl⟩
    · exact ⟨false, rfl, rfl⟩
    · exact ⟨false, rfl, rfl⟩
    · exact ⟨v == w, rfl, rfl⟩

/-- C6. The function `with_default` returns the contained value of a just and the default
for nothing, and it never aborts. -/
theorem with_default_total {T : Type} (d : T) :
    (∀ v : T, with_default d (just v) = .ok v) ∧ with_default d nothing = .ok d ∧
      ∀ m : maybe T, isFault (with_default d m) = false := by
  refine ⟨fun v => rfl, rfl, fun m => ?_⟩
  rcases maybe_cases m with h | ⟨v, h⟩ <;> subst h <;> rfl

/-- C7. Extraction undoes wrapping: `unsafe_get_just(just(v)) = v`, without aborting. -/
theorem unsafe_get_just_of_just {T : Type} (v : T) : unsafe_get_just (just v) = .ok v :=
  rfl

/-- C8. The query `is_just` is true on `just(v)` and false on `nothing()`, and `is_nothing`
is its negation on every optional. -/
theorem is_just_is_nothing {T : Type} :
    (∀ v : T, is_just (just v) = true) ∧ is_just (nothing : maybe T) = false ∧
      ∀ m : maybe T, is_nothing m = !is_just m :=
  ⟨fun _ => rfl, rfl, fun _ => rfl⟩

/-- C9 as stated fails: the copy of `just(NaN)` is `just(NaN)`, and comparing it with the
original gives false, since NaN is not equal to itself. -/
theorem ctor_copy_nan_counterexample :
    maybe.ctor_copy (just double_sample.nan) = .ok (just double_sample.nan) ∧
      ¬ (∀ c, maybe.ctor_copy (just double_sample.nan) = .ok c →
          maybe_eq c (just double_sample.nan) = .ok true) ∧
      maybe_eq (just double_sample.nan) (just double_sample.nan) = .ok false := by
  refine ⟨rfl, fun h => ?_, rfl⟩
  have h2 := h (just double_sample.nan) rfl
  have h3 : maybe_eq (just double_sample.nan) (just double_sample.nan) = .ok false := rfl
  rw [h3] at h2
  cases h2

/-- C9, amended. Copy construction never aborts and yields an optional with the state and
the content of the original: the copy is the same value as `m`, it is just iff `m` is, it
holds the value `m` holds, and comparing it with `m` gives what comparing `m` with itself
gives: it compares equal to `m` iff `m` is nothing or the contained value `v` of `m`
satisfies `v == v`, hence always when `==` on the contained type is reflexive. -/
theorem ctor_copy_preserves {T : Type} [BEq T] (m : maybe T) :
    maybe.ctor_copy m = .ok m ∧
      ∀ c : maybe T, maybe.ctor_copy m = .ok c →
        (is_just c = true ↔ is_just m = true) ∧
        (∀ v : T, m = just v → unsafe_get_just c = .ok v) ∧
        maybe_eq c m = maybe_eq m m ∧
        (maybe_eq c m = .ok true ↔ m = nothing ∨ ∃ v : T, m = just v ∧ (v == v) = true) ∧
        ((∀ v : T, (v == v) = true) → maybe_eq c m = .ok true) := by
  have hcopy : maybe.ctor_copy m = .ok m := by
    rcases maybe_cases m with h | ⟨v, h⟩ <;> subst h <;> rfl
  have hjj : ∀ v : T, maybe_eq (just v) (just v) = .ok (v == v) := fun _ => rfl
  refine ⟨hcopy, fun c hc => ?_⟩
  rw [hcopy] at hc
  cases hc
  refine ⟨Iff.rfl, ?_, rfl, ?_, fun hrefl => ?_⟩
  · rintro v rfl
    rfl
  · rcases maybe_cases m with h | ⟨v, h⟩ <;> subst h
    · exact ⟨fun _ => Or.inl rfl, fun _ => rfl⟩
    · rw [hjj]
      constructor
      · intro h
        exact Or.inr ⟨v, rfl, by simpa using h⟩
      · rintro (h | ⟨w, h1, h2⟩)
        · exact absurd h (just_ne_nothing v)
        · simp only [just, maybe.ctor_value, maybe.mk.injEq, Option.some.injEq] at h1
          subst h1
          rw [h2]
  · rcases maybe_cases m with h | ⟨v, h⟩ <;> subst h
    · rfl
    · rw [hjj, hrefl v]

/-- Scenario of C9: copies of `just(4)` and of nothing compare equal to their originals. -/
theorem ctor_copy_preserves_witness :
    maybe.ctor_copy (just (4 : Int)) = .ok (just 4) ∧
      maybe_eq (just (4 : Int)) (just 4) = .ok true ∧
      maybe.ctor_copy (nothing : maybe Int) = .ok nothing ∧
      maybe_eq (nothing : maybe Int) nothing = .ok true :=
  ⟨(ctor_copy_preserves (just 4)).1,
    ((ctor_copy_preserves (just 4)).2 (just 4) (ctor_copy_preserves (just 4)).1).2.2.2.2
      (fun v => by simp),
    (ctor_copy_preserves nothing).1,
    ((ctor_copy_preserves nothing).2 nothing (ctor_copy_preserves nothing).1).2.2.2.2
      (fun v => by simp)⟩

/-- C10, the code at a chain every step of which is convertible: `f, g : int(int)`,
`h : std::string(int)`, `i : int(std::string)`, `j : int(int)`. The five-function `compose`
rejects it, because it compares the output of `i` with the parameter of `i`. -/
theorem compose5_rejects_convertible_chain :
    chain5_convertible is_convertible_sample sig_int_to_int sig_int_to_int
        sig_int_to_string sig_string_to_int sig_int_to_int = true ∧
      compose5_static_asserts is_convertible_sample sig_int_to_int sig_int_to_int
        sig_int_to_string sig_string_to_int sig_int_to_int = false := by
  decide

/-- What the five-function `compose` checks, for unary callables: the first three steps of
the chain, and the output of `i` against the parameter of `i` itself. -/
theorem compose5_static_asserts_eq {Ty : Type} (conv : Ty → Ty → Bool)
    (F G H I J : function_traits Ty) (hF : F.arity = 1) (hG : G.arity = 1)
    (hH : H.arity = 1) (hI : I.arity = 1) (hJ : J.arity = 1) :
    compose5_static_asserts conv F G H I J =
      (conv F.result_type G.arg0 && conv G.result_type H.arg0 &&
        conv H.result_type I.arg0 && conv I.result_type I.arg0) := by
  simp [compose5_static_asserts, hF, hG, hH, hI, hJ]

/-- The four-function `compose` checks every step of its chain, for unary callables. -/
theorem compose4_static_asserts_eq {Ty : Type} (conv : Ty → Ty → Bool)
    (F G H I : function_traits Ty) (hF : F.arity = 1) (hG : G.arity = 1)
    (hH : H.arity = 1) (hI : I.arity = 1) :
    compose4_static_asserts conv F G H I =
      (conv F.result_type G.arg0 && conv G.result_type H.arg0 &&
        conv H.result_type I.arg0) := by
  simp [compose4_static_asserts, hF, hG, hH, hI]

/-- The check of `and_then(f, g)`, for unary callables that return optionals: the contained
type of the result of `f` is convertible to the parameter type of `g`. -/
theorem and_then_static_asserts_eq {Ty : Type} (conv : Ty → Ty → Bool) (strip : Ty → Ty)
    (member_type : Ty → Option Ty) (F G : function_traits Ty) (B C : Ty)
    (hF : F.arity = 1) (hG : G.arity = 1)
    (hB : member_type (strip F.result_type) = some B)
    (hC : member_type (strip G.result_type) = some C) :
    and_then_static_asserts conv strip member_type F G = conv B (strip G.arg0) := by
  simp [and_then_static_asserts, hF, hG, hB, hC]

/-- C12, the code at a chain of unary functions with matching types: `f, g = add_one`,
`h = to_text`, `i = text_length`, `j = add_one`. The value `j(i(h(g(f(5)))))` is 8 and the
four-function `compose` of the first four functions returns the closure that gives 7 at 5,
but the five-function `compose` is rejected by its last `static_assert`. -/
theorem compose_5_rejects_matching_chain :
    chain5_convertible is_convertible_sample (unary_traits .int .int)
        (unary_traits .int .int) (unary_traits .int .std_string)
        (unary_traits .std_string .int) (unary_traits .int .int) = true ∧
      add_one (text_length (to_text (add_one (add_one 5)))) = 8 ∧
      (compose_4 cpp_value is_convertible_sample .int .int .int .std_string .int
        add_one add_one to_text text_length).map (fun closure => closure (5 : Int))
          = some (7 : Int) ∧
      (compose_5 cpp_value is_convertible_sample .int .int .int .std_string .int .int
        add_one add_one to_text text_length add_one).isNone = true := by
  exact ⟨by decide, by decide, rfl, rfl⟩

/-- Forward composition of the calls that compile: when its `static_assert`s hold, each
`compose` returns the closure that applies the functions from left to right. -/
theorem compose_accepted_forward {Ty : Type} (El : Ty → Type) (conv : Ty → Ty → Bool)
    (a b c d e r : Ty) (f : El a → El b) (g : El b → El c) (h : El c → El d)
    (i : El d → El e) (j : El e → El r) :
    (conv b b = true → compose El conv a b c f g = some (fun x => g (f x))) ∧
      (conv b b = true → conv c c = true →
        compose_3 El conv a b c d f g h = some (fun x => h (g (f x)))) ∧
      (conv b b = true → conv c c = true → conv d d = true →
        compose_4 El conv a b c d e f g h i = some (fun x => i (h (g (f x))))) ∧
      (conv b b = true → conv c c = true → conv d d = true → conv e d = true →
        compose_5 El conv a b c d e r f g h i j = some (fun x => j (i (h (g (f x)))))) := by
  refine ⟨fun h1 => ?_, fun h1 h2 => ?_, fun h1 h2 h3 => ?_, fun h1 h2 h3 h4 => ?_⟩
  · simp [compose, compose2_static_asserts, unary_traits, h1]
  · simp [compose_3, compose3_static_asserts, unary_traits, h1, h2]
  · simp [compose_4, compose4_static_asserts, unary_traits, h1, h2, h3]
  · simp [compose_5, compose5_static_asserts, unary_traits, h1, h2, h3, h4]

/-- The five-function `compose` compiles only if the result type of its fourth function
converts to the parameter type of that same function. -/
theorem compose_5_accepted_only_if {Ty : Type} (El : Ty → Type) (conv : Ty → Ty → Bool)
    (a b c d e r : Ty) (f : El a → El b) (g : El b → El c) (h : El c → El d)
    (i : El d → El e) (j : El e → El r)
    (hs : (compose_5 El conv a b c d e r f g h i j).isSome = true) : conv e d = true := by
  unfold compose_5 at hs
  split_ifs at hs with h1
  · simp [compose5_static_asserts, unary_traits] at h1
    exact h1.2
  · simp at hs

/-- C13. The function `zip_with(f, xs, ys)` returns a sequence of length `min(|xs|, |ys|)`
whose `i`-th element is `f(xs[i], ys[i])` for every `i` below that length, reading no
element past the end; `zip(xs, ys)` is `zip_with` applied to pair construction. -/
theorem zip_with_spec {X Y T : Type} (f : X → Y → T) (xs : List X) (ys : List Y) :
    (∃ r, zip_with f xs ys = some r ∧ r.length = min xs.length ys.length ∧
        ∀ i, i < min xs.length ys.length →
          ∃ x y, xs[i]? = some x ∧ ys[i]? = some y ∧ r[i]? = some (f x y)) ∧
      zip xs ys = zip_with (fun x y => (x, y)) xs ys := by
  refine ⟨⟨List.zipWith f xs ys, zip_with_eq_zipWith f xs ys, by simp, fun i hi => ?_⟩, rfl⟩
  have hx : i < xs.length := lt_of_lt_of_le hi (Nat.min_le_left _ _)
  have hy : i < ys.length := lt_of_lt_of_le hi (Nat.min_le_right _ _)
  refine ⟨xs[i], ys[i], List.getElem?_eq_getElem hx, List.getElem?_eq_getElem hy, ?_⟩
  simp [List.getElem?_zipWith, List.getElem?_eq_getElem hx, List.getElem?_eq_getElem hy]

/-- Scenario of C13: `zip_with((+), [1, 2, 3], [5, 6]) = [6, 8]` and
`zip([1, 2, 3], [5, 6]) = [(1, 5), (2, 6)]`. -/
theorem zip_with_spec_witness :
    zip_with (fun a b : Nat => a + b) [1, 2, 3] [5, 6] = some [6, 8] ∧
      zip [1, 2, 3] [5, 6] = some [(1, 5), (2, 6)] := by
  decide

/-- C14. The functions `unzip` and `zip` are inverse up to truncation: zipping the two
sequences of `unzip(ps)` gives back `ps`, and `unzip(zip(xs, ys))` is the pair of the first
`n` elements of `xs` and of `ys`, with `n = min(|xs|, |ys|)`. -/
theorem unzip_zip_inverse {X Y : Type} (ps : List (X × Y)) (xs : List X) (ys : List Y) :
    zip (unzip ps).1 (unzip ps).2 = some ps ∧
      ∃ l, zip xs ys = some l ∧
        unzip l = (xs.take (min xs.length ys.length), ys.take (min xs.length ys.length)) := by
  constructor
  · rw [zip_eq_zip, unzip_eq_unzip, List.zip_unzip]
  · refine ⟨List.zip xs ys, zip_eq_zip xs ys, ?_⟩
    rw [unzip_eq_unzip, List.zip_eq_zip_take_min]
    apply List.unzip_zip
    simp

/-- Scenario of C14: `unzip([(1, 5), (2, 6)]) = ([1, 2], [5, 6])`. -/
theorem unzip_zip_inverse_witness :
    unzip [((1 : Nat), (5 : Nat)), (2, 6)] = ([1, 2], [5, 6]) ∧
      (zip (unzip [((1 : Nat), (5 : Nat)), (2, 6)]).1 (unzip [((1 : Nat), (5 : Nat)), (2, 6)]).2
          = some [(1, 5), (2, 6)] ∧
        ∃ l, zip [(1 : Nat), 2, 3] [(5 : Nat), 6] = some l ∧
          unzip l = ([(1 : Nat), 2, 3].take (min [(1 : Nat), 2, 3].length [(5 : Nat), 6].length),
            [(5 : Nat), 6].take (min [(1 : Nat), 2, 3].length [(5 : Nat), 6].length))) :=
  ⟨by decide, unzip_zip_inverse [((1 : Nat), (5 : Nat)), (2, 6)] [1, 2, 3] [5, 6]⟩

/-- C15. The function `overlapping_pairs(xs)`, for `xs` of length `n`, returns the empty
sequence when `n < 2`, so that `n - 1` is never computed on 0, and otherwise `n - 1`
elements, the `i`-th being `(xs[i], xs[i+1])`; it reads no element past the end. -/
theorem overlapping_pairs_spec {T : Type} (xs : List T) :
    ∃ r, overlapping_pairs xs = some r ∧ (xs.length < 2 → r = []) ∧
      (2 ≤ xs.length → r.length = xs.length - 1) ∧
      ∀ i, i + 1 < xs.length →
        ∃ a b, xs[i]? = some a ∧ xs[i + 1]? = some b ∧ r[i]? = some (a, b) := by
  refine ⟨List.zip xs xs.tail, overlapping_pairs_eq_zip_tail xs, ?_, ?_, fun i hi => ?_⟩
  · intro h
    match xs, h with
    | [], _ => rfl
    | [_], _ => rfl
  · intro _
    simp
  · have h0 : i < xs.length := by omega
    refine ⟨xs[i], xs[i + 1], List.getElem?_eq_getElem h0, List.getElem?_eq_getElem hi, ?_⟩
    have ht : xs.tail[i]? = some xs[i + 1] := by
      rw [List.getElem?_tail, List.getElem?_eq_getElem hi]
    simp [List.zip, List.getElem?_zipWith, List.getElem?_eq_getElem h0, ht]

/-- Scenario of C15: `overlapping_pairs([0, 1, 2, 3]) = [(0, 1), (1, 2), (2, 3)]`; on the
empty sequence `n - 1` would wrap around, and the function returns the empty sequence
without computing it, as it does on a one-element sequence. -/
theorem overlapping_pairs_spec_witness :
    overlapping_pairs [(0 : Nat), 1, 2, 3] = some [(0, 1), (1, 2), (2, 3)] ∧
      size_t_sub (size_of_cont ([] : List Nat)) 1 = none ∧
      overlapping_pairs ([] : List Nat) = some [] ∧
      overlapping_pairs [(7 : Nat)] = some [] := by
  decide

/-- C18. The predicate combinators are the pointwise boolean operators: `logical_not(f)(x)`
is `!f(x)`, `logical_or` is `||`, `logical_and` is `&&`, and `logical_xor(f, g)(x)` is true
iff exactly one of `f(x)`, `g(x)` is true, that is `f(x) != g(x)`. -/
theorem logical_combinators {X : Type} (f g : X → Bool) (x : X) :
    logical_not f x = (!f x) ∧ logical_or f g x = (f x || g x) ∧
      logical_and f g x = (f x && g x) ∧
      (logical_xor f g x = true ↔
        (f x = true ∧ g x = false) ∨ (f x = false ∧ g x = true)) ∧
      logical_xor f g x = (f x != g x) := by
  refine ⟨rfl, rfl, rfl, ?_, ?_⟩ <;> simp only [logical_xor] <;>
    cases f x <;> cases g x <;> simp

/-- C11. For a dictionary `m`, whose keys are pairwise distinct, and a key `k`:
`get_from_map(m, k)` is `just(v)` when `m` contains the entry `(k, v)` and nothing when `m`
has no entry for `k`; `get_from_map_with_def(m, d, k)` returns that `v`, or `d` when the key
is absent, and does not abort. -/
theorem get_from_map_spec {K V : Type} [DecidableEq K] (m : List (K × V)) (d : V) (k : K)
    (hm : is_unordered_map m) :
    (∀ v, (k, v) ∈ m → get_from_map m k = just v ∧ get_from_map_with_def m d k = .ok v) ∧
      ((∀ v, (k, v) ∉ m) →
        get_from_map m k = nothing ∧ get_from_map_with_def m d k = .ok d) := by
  constructor
  · intro v hv
    have h : get_from_map m k = just v := by
      simp [get_from_map, map_find_of_mem m hm k v hv]
    exact ⟨h, by rw [get_from_map_with_def, h]; rfl⟩
  · intro hv
    have hk : k ∉ m.map Prod.fst := by
      intro hmem
      obtain ⟨⟨a, b⟩, hp, rfl⟩ := List.mem_map.mp hmem
      exact hv b hp
    have h : get_from_map m k = nothing := by
      simp [get_from_map, (map_find_eq_none m k).mpr hk]
    exact ⟨h, by rw [get_from_map_with_def, h]; rfl⟩

/-- Scenario of C11: in `{1: 'a', 2: 'b'}` the key 2 gives `just('b')`, and the key 3 gives
nothing and the default. -/
theorem get_from_map_spec_witness :
    (get_from_map [(1, 'a'), (2, 'b')] 2 = just 'b' ∧
        get_from_map_with_def [(1, 'a'), (2, 'b')] 'z' 2 = .ok 'b') ∧
      get_from_map [(1, 'a'), (2, 'b')] 3 = nothing ∧
      get_from_map_with_def [(1, 'a'), (2, 'b')] 'z' 3 = .ok 'z' :=
  ⟨(get_from_map_spec [(1, 'a'), (2, 'b')] 'z' 2 (by decide)).1 'b' (by decide),
    (get_from_map_spec [(1, 'a'), (2, 'b')] 'z' 3 (by decide)).2 (by simp)⟩

/-- C16. For a `std::map` `m` whose values are pairwise distinct, `swap_keys_and_values(m)`
is a `std::map` that contains `(v, k)` exactly when `m` contains `(k, v)`, it has as many
entries as `m`, and swapping twice returns `m`; the same holds with `std::unordered_map`
as the type of the result. -/
theorem swap_keys_and_values_spec {K V : Type} [LinearOrder K] [LinearOrder V]
    (m : List (K × V)) (hm : is_std_map m) (hv : (m.map Prod.snd).Nodup) :
    (is_std_map (swap_keys_and_values std_map_of_range m) ∧
        (∀ k v, (v, k) ∈ swap_keys_and_values std_map_of_range m ↔ (k, v) ∈ m) ∧
        (swap_keys_and_values std_map_of_range m).length = m.length ∧
        swap_keys_and_values std_map_of_range (swap_keys_and_values std_map_of_range m)
          = m) ∧
      (is_unordered_map (swap_keys_and_values unordered_map_of_range m) ∧
        (∀ k v, (v, k) ∈ swap_keys_and_values unordered_map_of_range m ↔ (k, v) ∈ m) ∧
        (swap_keys_and_values unordered_map_of_range m).length = m.length ∧
        swap_keys_and_values unordered_map_of_range
          (swap_keys_and_values unordered_map_of_range m) = m) := by
  have hkeys : is_unordered_map m := std_map_is_unordered m hm
  have hswap : is_unordered_map (m.map swap_pair_elems) := by
    unfold is_unordered_map
    rw [map_fst_swap_pair_elems]
    exact hv
  constructor
  · have hp := swap_keys_and_values_perm m hv
    have hs := std_map_of_range_sorted (m.map swap_pair_elems)
    rw [← swap_keys_and_values_std_eq] at hs
    refine ⟨hs, fun k v => ?_, ?_, ?_⟩
    · rw [hp.mem_iff, mem_map_swap_pair_elems]
    · rw [hp.length_eq, List.length_map]
    · have hv2 : ((swap_keys_and_values std_map_of_range m).map Prod.snd).Nodup := by
        rw [(hp.map Prod.snd).nodup_iff]
        have h : (m.map swap_pair_elems).map Prod.snd = m.map Prod.fst := by
          simp [List.map_map, Function.comp_def, swap_pair_elems]
        rw [h]
        exact hkeys
      have hp2 := swap_keys_and_values_perm (swap_keys_and_values std_map_of_range m) hv2
      have hp3 : (swap_keys_and_values std_map_of_range
          (swap_keys_and_values std_map_of_range m)).Perm m := by
        refine hp2.trans ?_
        have h := hp.map swap_pair_elems
        rwa [map_swap_swap_pair_elems] at h
      refine std_map_eq_of_perm _ _ ?_ hm hp3
      rw [swap_keys_and_values_std_eq]
      exact std_map_of_range_sorted _
  · have he : swap_keys_and_values unordered_map_of_range m = m.map swap_pair_elems := by
      rw [swap_keys_and_values_unordered_eq, unordered_map_of_range_eq _ hswap]
    refine ⟨by rw [he]; exact hswap, fun k v => ?_, ?_, ?_⟩
    · rw [he, mem_map_swap_pair_elems]
    · rw [he, List.length_map]
    · rw [he, swap_keys_and_values_unordered_eq, map_swap_swap_pair_elems,
        unordered_map_of_range_eq _ hkeys]

/-- Scenario of C16: `swap_keys_and_values({(1, 'a'), (2, 'b')}) = {('a', 1), ('b', 2)}`,
and swapping again gives back the dictionary. -/
theorem swap_keys_and_values_spec_witness :
    swap_keys_and_values std_map_of_range [(1, 'a'), (2, 'b')] = [('a', 1), ('b', 2)] ∧
      swap_keys_and_values std_map_of_range
        (swap_keys_and_values std_map_of_range [(1, 'a'), (2, 'b')])
          = [(1, 'a'), (2, 'b')] :=
  ⟨by decide,
    (swap_keys_and_values_spec [(1, 'a'), (2, 'b')] (by decide) (by decide)).1.2.2.2⟩

/-- C17 as stated fails: with keys `[1, 2, 1]` and values `["one", "two"]` the first two
keys are distinct, and the key at position 2, which is 1, has an entry in the result. -/
theorem create_map_surplus_key_counterexample :
    ([(1 : Nat), 2, 1].take (min [(1 : Nat), 2, 1].length ["one", "two"].length)).Nodup ∧
      create_map [(1 : Nat), 2, 1] ["one", "two"] = some [(1, "one"), (2, "two")] ∧
      ¬ (∀ j k, min [(1 : Nat), 2, 1].length ["one", "two"].length ≤ j →
          [(1 : Nat), 2, 1][j]? = some k →
          get_from_map [((1 : Nat), "one"), (2, "two")] k = nothing) := by
  refine ⟨by decide, by decide, fun h => ?_⟩
  exact absurd (h 2 1 (by decide) (by decide)) (by decide)

/-- C17, amended. With `n = min(|keys|, |values|)` and the first `n` keys pairwise distinct,
`create_map(keys, values)` and `create_unordered_map(keys, values)` return a dictionary
with exactly the `n` entries `(keys[i], values[i])`, `i < n`: looking up `keys[i]` gives
`values[i]`, and a key that is not among the first `n` keys has no entry. -/
theorem create_map_spec {K V : Type} [LinearOrder K] (keys : List K) (values : List V)
    (create : List K → List V → Option (List (K × V)))
    (hc : create = create_map ∨ create = create_unordered_map)
    (hk : (keys.take (min keys.length values.length)).Nodup) :
    ∃ m, create keys values = some m ∧ is_unordered_map m ∧
      m.length = min keys.length values.length ∧
      (∀ k v, (k, v) ∈ m ↔
        ∃ i, i < min keys.length values.length ∧ keys[i]? = some k ∧ values[i]? = some v) ∧
      (∀ i, i < min keys.length values.length →
        ∃ k v, keys[i]? = some k ∧ values[i]? = some v ∧ get_from_map m k = just v) ∧
      (∀ k, k ∉ keys.take (min keys.length values.length) → get_from_map m k = nothing) := by
  have hz : is_unordered_map (List.zip keys values) := by
    unfold is_unordered_map
    rw [map_fst_zip_take]
    exact hk
  have hnd : ∀ m : List (K × V), m.Perm (List.zip keys values) → is_unordered_map m :=
    fun m hp => ((hp.map Prod.fst).nodup_iff).mpr hz
  rcases hc with rfl | rfl
  · have hp := std_map_of_range_perm (List.zip keys values) hz
    refine ⟨std_map_of_range (List.zip keys values), ?_, hnd _ hp,
      zip_entries_spec keys values _ hp hk⟩
    simp [create_map, zip_eq_zip, pairs_to_map, convert]
  · have he := unordered_map_of_range_eq (List.zip keys values) hz
    refine ⟨List.zip keys values, ?_, hz,
      zip_entries_spec keys values _ (List.Perm.refl _) hk⟩
    simp [create_unordered_map, zip_eq_zip, pairs_to_map, convert, he]

/-- Scenario of C17: `create_map([1, 2, 3], ["one", "two"]) = {1: "one", 2: "two"}`, and so
for `create_unordered_map`. -/
theorem create_map_spec_witness :
    create_map [(1 : Nat), 2, 3] ["one", "two"] = some [(1, "one"), (2, "two")] ∧
      create_unordered_map [(1 : Nat), 2, 3] ["one", "two"]
        = some [(1, "one"), (2, "two")] ∧
      ∃ m, create_map [(1 : Nat), 2, 3] ["one", "two"] = some m ∧ is_unordered_map m ∧
        m.length = min [(1 : Nat), 2, 3].length ["one", "two"].length ∧
        (∀ k v, (k, v) ∈ m ↔
          ∃ i, i < min [(1 : Nat), 2, 3].length ["one", "two"].length ∧
            [(1 : Nat), 2, 3][i]? = some k ∧ ["one", "two"][i]? = some v) ∧
        (∀ i, i < min [(1 : Nat), 2, 3].length ["one", "two"].length →
          ∃ k v, [(1 : Nat), 2, 3][i]? = some k ∧ ["one", "two"][i]? = some v ∧
            get_from_map m k = just v) ∧
        (∀ k, k ∉ [(1 : Nat), 2, 3].take
            (min [(1 : Nat), 2, 3].length ["one", "two"].length) →
          get_from_map m k = nothing) :=
  ⟨by decide, by decide,
    create_map_spec [(1 : Nat), 2, 3] ["one", "two"] create_map (Or.inl rfl) (by decide)⟩

end fplus
